import Mathlib

/-!
Formal model of the intelligent-browser-tool crawler core.

The development shallowly embeds the Python sources: pure functions become
Lean functions, stateful classes become explicit state records with
state-passing operations, Python ints become Int/Nat, floats become Rat,
sets become Finset, dicts become functions or association lists.

Standard-library capabilities that the sources call but do not define
(hashlib.md5, urllib.parse.urljoin, the LLM-based file namer) are threaded
through a PyEnv parameter, so every theorem quantifies over them; the
string-level parts of urllib.parse (urlsplit, urldefrag) are modelled
directly below, following the CPython algorithm on the code points the
sources exercise (ASCII case folding; the WHATWG control-character
stripping of newer CPython is not modelled).
-/

namespace Browser

/-- Characters removed by Python's str.strip() with no arguments
(ASCII whitespace; further Unicode whitespace is not modelled). -/
def isPySpace (c : Char) : Bool :=
  c = ' ' || c = '\t' || c = '\n' || c = '\r' || c = Char.ofNat 11 || c = Char.ofNat 12

/-- Drop leading characters satisfying p. -/
def trimLeftP (p : Char → Bool) (l : List Char) : List Char :=
  l.dropWhile p

/-- Drop trailing characters satisfying p. -/
def trimRightP (p : Char → Bool) (l : List Char) : List Char :=
  (l.reverse.dropWhile p).reverse

/-- Python str.strip() on the character list. -/
def pyStripL (l : List Char) : List Char :=
  trimRightP isPySpace (trimLeftP isPySpace l)

/-- Python str.strip(). -/
def pyStrip (s : String) : String :=
  String.mk (pyStripL s.toList)

/-- Python str.lower() (ASCII case folding, as exercised by the sources). -/
def pyLower (s : String) : String :=
  String.mk (s.toList.map Char.toLower)

/-- Python str.rstrip(c) on the character list. -/
def rstripCharL (c : Char) (l : List Char) : List Char :=
  trimRightP (fun d => d = c) l

/-- Python str.rstrip(c). -/
def rstripChar (c : Char) (s : String) : String :=
  String.mk (rstripCharL c s.toList)

/-- Python url.startswith(p), as a list-level check. -/
def strStarts (s p : String) : Bool :=
  p.toList.isPrefixOf s.toList

/-- Python url.endswith(p). -/
def strEnds (s p : String) : Bool :=
  p.toList.isSuffixOf s.toList

/-- Substring test on character lists: Python's `needle in haystack`. -/
def subOf (p : List Char) : List Char → Bool
  | [] => p.isEmpty
  | c :: rest => p.isPrefixOf (c :: rest) || subOf p rest

/-- Python's `needle in haystack` on strings. -/
def strIn (needle s : String) : Bool :=
  subOf needle.toList s.toList

/-- Python's `c in s` for a single character. -/
def hasChar (c : Char) (s : String) : Bool :=
  s.toList.contains c

/-- The text before the first '#', i.e. the URL part of urllib's urldefrag. -/
def pyDefragL (l : List Char) : List Char :=
  l.takeWhile (fun c => c ≠ '#')

/-- urllib.parse.urldefrag, keeping only the URL part (the sources discard
the fragment). -/
def pyDefrag (s : String) : String :=
  String.mk (pyDefragL s.toList)

/-- Python str.split(sep, 1) second half helper: the text strictly after the
first occurrence of c, or [] when c does not occur. -/
def afterFirst (c : Char) (l : List Char) : List Char :=
  (l.dropWhile (fun d => d ≠ c)).drop 1

/-- Characters allowed in a URL scheme by urllib.parse (letters, digits,
plus, minus, dot). -/
def isSchemeChar (c : Char) : Bool :=
  c.isAlpha || c.isDigit || c = '+' || c = '-' || c = '.'

/-- The five components produced by urllib.parse.urlsplit / urlparse as the
sources consume them (the params component is never used). -/
structure UrlParts where
  scheme : String
  netloc : String
  path : String
  query : String
  fragment : String
deriving Repr, DecidableEq

/-- Model of urllib.parse.urlsplit: detect a scheme (nonempty run of scheme
characters starting with a letter, before a colon, lowercased), then a
netloc after a leading "//" (up to the first of '/', '?', '#'), then split
off the fragment at the first '#' and the query at the first '?'. -/
def pyUrlsplit (url : String) : UrlParts :=
  let l := url.toList
  let cand := l.takeWhile (fun c => c ≠ ':')
  let hasColon := cand.length < l.length
  let schemeOk :=
    hasColon && !cand.isEmpty && (cand.headI).isAlpha && cand.all isSchemeChar
  let scheme := if schemeOk then String.mk (cand.map Char.toLower) else ""
  let rest := if schemeOk then l.drop (cand.length + 1) else l
  let hasNetloc := ['/', '/'].isPrefixOf rest
  let netlocL :=
    if hasNetloc then
      (rest.drop 2).takeWhile (fun c => c ≠ '/' && c ≠ '?' && c ≠ '#')
    else []
  let rest2 := if hasNetloc then rest.drop (2 + netlocL.length) else rest
  let beforeFrag := rest2.takeWhile (fun c => c ≠ '#')
  let frag := afterFirst '#' rest2
  let pathL := beforeFrag.takeWhile (fun c => c ≠ '?')
  let queryL := afterFirst '?' beforeFrag
  { scheme := scheme
    netloc := String.mk netlocL
    path := String.mk pathL
    query := String.mk queryL
    fragment := String.mk frag }

/-- External capabilities the sources import but do not define: hashlib.md5
hex digests, urllib.parse.urljoin for relative references, and the
LLM-assisted filename generator of the storage layer. No claim depends on
their concrete behaviour, so the model quantifies over them. -/
structure PyEnv where
  md5 : String → String
  urljoin : String → String → String
  genFilename : String → String → String → String

/-- A concrete environment used to evaluate the model on closed inputs. -/
def env0 : PyEnv :=
  { md5 := id
    urljoin := fun _ u => u
    genFilename := fun _ _ _ => "page" }

/-- Model of utils.normalize_url: reject empty input, strip whitespace,
drop the fragment, resolve against the base when the URL is not absolute,
then require a scheme and a netloc, returning the resolved string itself.
The base is optional exactly as in the Python signature; a falsy (empty)
base also skips resolution. -/
def normalizeUrl (env : PyEnv) (url : String) (base : Option String) : Option String :=
  if url = "" then none
  else
    let u1 := pyStrip url
    let u2 := pyDefrag u1
    let u3 :=
      match base with
      | some b =>
          if b ≠ "" && !(strStarts u2 "http://") && !(strStarts u2 "https://") then
            env.urljoin b u2
          else u2
      | none => u2
    let p := pyUrlsplit u3
    if p.scheme = "" || p.netloc = "" then none else some u3

/-- Default ports stripped by URLNormalizer (http 80, https 443). -/
def defaultPort (scheme : String) : Option Nat :=
  if scheme = "http" then some 80
  else if scheme = "https" then some 443
  else none

/-- Decimal value of a digit list (most significant first). -/
def digitsVal (l : List Char) : Nat :=
  l.foldl (fun acc c => acc * 10 + (c.toNat - '0'.toNat)) 0

/-- Python int(s) for the port string: a Nat parse; negative or malformed
ports make int() either fail or yield a non-default value, and in both
cases the netloc is kept, which the none branch reproduces. -/
def parsePort (s : String) : Option Nat :=
  if s ≠ "" && s.toList.all Char.isDigit then some (digitsVal s.toList) else none

/-- Python str.rsplit(":", 1) on the netloc: the part before the last colon
and the part after it. -/
def rsplitColon (s : String) : String × String :=
  let r := s.toList.reverse
  let portR := r.takeWhile (fun c => c ≠ ':')
  (String.mk ((r.drop (portR.length + 1)).reverse), String.mk portR.reverse)

/-- Model of url_queue.URLNormalizer.normalize: resolve relative URLs,
promote protocol-relative URLs to https, drop the fragment, lowercase the
scheme and host, strip a default port, normalise the trailing slash of the
path, and rebuild the URL. Nonempty inputs are never rejected. -/
def urlNormalize (env : PyEnv) (url : String) (base : String) : String :=
  if url = "" then ""
  else
    let u1 :=
      if base ≠ "" && !(strStarts url "http://") && !(strStarts url "https://")
          && !(strStarts url "//") then
        env.urljoin base url
      else url
    let u2 := if strStarts u1 "//" then "https:" ++ u1 else u1
    let u3 := pyDefrag u2
    let p := pyUrlsplit u3
    let scheme := pyLower p.scheme
    let netloc0 := pyLower p.netloc
    let netloc :=
      if hasChar ':' netloc0 then
        let (host, portStr) := rsplitColon netloc0
        match parsePort portStr with
        | some port => if defaultPort scheme = some port then host else netloc0
        | none => netloc0
      else netloc0
    let path0 := p.path
    let path1 :=
      if path0 ≠ "/" && strEnds path0 "/" then rstripChar '/' path0 else path0
    let path := if path1 = "" then "/" else path1
    let normalized := scheme ++ "://" ++ netloc ++ path
    if p.query ≠ "" then normalized ++ "?" ++ p.query else normalized

/-- Model of URLNormalizer.get_url_hash: md5 of the normalised form. -/
def urlHash (env : PyEnv) (url : String) : String :=
  env.md5 (urlNormalize env url "")

/-- The filter inputs drawn from the configuration (allowed_domains and
exclude_patterns of config.browser). -/
structure FilterConfig where
  allowed_domains : List String
  exclude_patterns : List String
deriving Repr

/-- The fixed extension blacklist of URLFilter.DEFAULT_EXCLUDE_EXTENSIONS. -/
def excludeExtensions : List String :=
  [".pdf", ".doc", ".docx", ".xls", ".xlsx", ".ppt", ".pptx",
   ".zip", ".rar", ".tar", ".gz", ".7z",
   ".jpg", ".jpeg", ".png", ".gif", ".bmp", ".svg", ".ico", ".webp",
   ".mp3", ".mp4", ".avi", ".mov", ".wmv", ".flv", ".wav",
   ".exe", ".msi", ".dmg", ".apk", ".deb", ".rpm"]

/-- Model of URLFilter.is_allowed: empty URLs, non-http(s) schemes,
hosts outside a nonempty whitelist, URLs containing an exclude pattern,
and blacklisted file extensions are rejected. The Python reason string is
reduced to the boolean the callers branch on. -/
def isAllowed (cfg : FilterConfig) (url : String) : Bool :=
  if url = "" then false
  else
    let p := pyUrlsplit url
    if p.scheme ≠ "http" && p.scheme ≠ "https" then false
    else if !cfg.allowed_domains.isEmpty
        && !cfg.allowed_domains.any (fun a => strIn a (pyLower p.netloc)) then false
    else if cfg.exclude_patterns.any (fun pat => strIn pat url) then false
    else if excludeExtensions.any (fun ext => strEnds (pyLower p.path) ext) then false
    else true

/-- One entry of url_queue.QueueItem. Only priority, depth and timestamp
take part in the ordering (the other fields are compare=False). Floats are
modelled as rationals; the context dict as an association list. -/
structure QueueItem where
  priority : Int
  depth : Int
  timestamp : Rat
  url : String
  parent_url : String
  context : List (String × String)
deriving Repr, DecidableEq

/-- The comparison key of a QueueItem: the lexicographic triple
(priority, depth, timestamp) used by dataclass(order=True). -/
def qKey (i : QueueItem) : Lex (Int × Lex (Int × Rat)) :=
  toLex (i.priority, toLex (i.depth, i.timestamp))

/-- The heap ordering on queue items. -/
def qle (a b : QueueItem) : Prop := qKey a ≤ qKey b

instance : DecidableRel qle :=
  fun a b => inferInstanceAs (Decidable (qKey a ≤ qKey b))

instance : IsTotal QueueItem qle :=
  ⟨fun a b => le_total (qKey a) (qKey b)⟩

instance : IsTrans QueueItem qle :=
  ⟨fun _ _ _ h h' => le_trans h h'⟩

/-- url_queue.QueueStats. The per-priority and per-depth dicts are
modelled as total counting functions defaulting to zero. -/
structure QueueStats where
  total_added : Nat := 0
  total_processed : Nat := 0
  duplicates_skipped : Nat := 0
  filtered_out : Nat := 0
  current_size : Nat := 0
  priority_counts : Int → Nat := fun _ => 0
  depth_counts : Int → Nat := fun _ => 0

/-- The configuration slice URLQueue reads: config.crawl.max_depth plus
the filter inputs. The Python object stores the config at construction;
the model passes it to each operation instead. -/
structure QueueConfig where
  max_depth : Int
  filter : FilterConfig

/-- The mutable state of url_queue.URLQueue. CPython's heapq keeps a
binary-heap array; since heapq's observable contract is that heappop
returns the smallest item, the model represents the heap by the sorted
list of its elements: heappush becomes ordered insertion, heappop takes
the head, heapify is insertion sort. The seen/processed sets hold md5
keys; the failed dict is a total retry-count function defaulting to 0
(dict.get(k, 0)). -/
structure URLQueue where
  heap : List QueueItem
  seen : Finset String
  processed : Finset String
  failed : String → Nat
  stats : QueueStats

/-- A freshly constructed URLQueue. -/
def emptyQueue : URLQueue :=
  { heap := [], seen := ∅, processed := ∅, failed := fun _ => 0, stats := {} }

/-- Model of URLQueue.add. Branches in source order: failed normalisation
(returns False touching nothing), depth over the limit (filtered_out),
filter rejection (filtered_out), duplicate key (duplicates_skipped), and
finally the push, which inserts into the heap, records the key as seen
and updates the statistics. now stands for datetime.now().timestamp(). -/
def queueAdd (env : PyEnv) (cfg : QueueConfig) (q : URLQueue) (url : String)
    (priority depth : Int) (parent : String) (context : List (String × String))
    (now : Rat) : Bool × URLQueue :=
  let normalized := urlNormalize env url parent
  if normalized = "" then (false, q)
  else if depth > cfg.max_depth then
    (false, { q with stats := { q.stats with filtered_out := q.stats.filtered_out + 1 } })
  else if !(isAllowed cfg.filter normalized) then
    (false, { q with stats := { q.stats with filtered_out := q.stats.filtered_out + 1 } })
  else
    let h := urlHash env normalized
    if h ∈ q.seen then
      (false, { q with stats :=
        { q.stats with duplicates_skipped := q.stats.duplicates_skipped + 1 } })
    else
      let item : QueueItem :=
        { priority := priority, depth := depth, timestamp := now,
          url := normalized, parent_url := parent, context := context }
      let heap := q.heap.orderedInsert qle item
      (true,
        { q with
          heap := heap
          seen := insert h q.seen
          stats :=
            { q.stats with
              total_added := q.stats.total_added + 1
              current_size := heap.length
              priority_counts :=
                Function.update q.stats.priority_counts priority
                  (q.stats.priority_counts priority + 1)
              depth_counts :=
                Function.update q.stats.depth_counts depth
                  (q.stats.depth_counts depth + 1) } })

/-- Model of URLQueue.get_next: heappop the smallest item, refresh
current_size; None on the empty heap. -/
def queueGetNext (q : URLQueue) : Option (QueueItem × URLQueue) :=
  match q.heap with
  | [] => none
  | item :: rest =>
      some (item,
        { q with heap := rest, stats := { q.stats with current_size := rest.length } })

/-- Model of URLQueue.mark_processed: hash the (re-)normalised URL; on
success add the key to processed and count it, otherwise bump the key's
retry count in failed. Neither branch touches the seen set or the heap. -/
def queueMarkProcessed (env : PyEnv) (q : URLQueue) (url : String)
    (success : Bool) : URLQueue :=
  let normalized := urlNormalize env url ""
  let h := urlHash env normalized
  if success then
    { q with
      processed := insert h q.processed
      stats := { q.stats with total_processed := q.stats.total_processed + 1 } }
  else
    { q with failed := Function.update q.failed h (q.failed h + 1) }

/-- QueueItem.to_dict output: a JSON object with all six keys present.
Fields are Option-valued because from_dict must also accept objects with
missing keys. -/
structure ItemDict where
  priority : Option Int
  depth : Option Int
  timestamp : Option Rat
  url : Option String
  parent_url : Option String
  context : Option (List (String × String))
deriving Repr, DecidableEq

/-- QueueItem.to_dict. -/
def itemToDict (i : QueueItem) : ItemDict :=
  ⟨some i.priority, some i.depth, some i.timestamp,
   some i.url, some i.parent_url, some i.context⟩

/-- QueueItem.from_dict with its documented defaults (MEDIUM priority,
depth 0, now for the timestamp, empty strings and context). -/
def itemFromDict (now : Rat) (d : ItemDict) : QueueItem :=
  { priority := d.priority.getD 2
    depth := d.depth.getD 0
    timestamp := d.timestamp.getD now
    url := d.url.getD ""
    parent_url := d.parent_url.getD ""
    context := d.context.getD [] }

/-- The JSON document written by URLQueue.save_state. Serialising the
Python sets as lists and reading them back as sets is the identity on the
set, so both sides are modelled as the Finset; JSON round-trips the
numbers and strings exactly. -/
structure QueueStateFile where
  heap : List ItemDict
  seen_urls : Finset String
  processed_urls : Finset String
  failed_urls : String → Nat
  stats : QueueStats

/-- Model of URLQueue.save_state. -/
def queueSaveState (q : URLQueue) : QueueStateFile :=
  { heap := q.heap.map itemToDict
    seen_urls := q.seen
    processed_urls := q.processed
    failed_urls := q.failed
    stats := q.stats }

/-- Model of URLQueue.load_state on the target queue q0: rebuild and
re-heapify the heap, replace the three key collections, and restore only
the four scalar counters plus current_size; the per-priority and
per-depth counts of q0 are left untouched. -/
def queueLoadState (q0 : URLQueue) (f : QueueStateFile) (now : Rat) : URLQueue :=
  let heap := (f.heap.map (itemFromDict now)).insertionSort qle
  { q0 with
    heap := heap
    seen := f.seen_urls
    processed := f.processed_urls
    failed := f.failed_urls
    stats :=
      { q0.stats with
        total_added := f.stats.total_added
        total_processed := f.stats.total_processed
        duplicates_skipped := f.stats.duplicates_skipped
        filtered_out := f.stats.filtered_out
        current_size := heap.length } }

/-- The sequence of items returned by repeatedly calling get_next until
the queue is empty, with the heap length as fuel. -/
def popAllGo : Nat → URLQueue → List QueueItem
  | 0, _ => []
  | n + 1, q =>
      match queueGetNext q with
      | none => []
      | some (i, q') => i :: popAllGo n q'

/-- The full pop sequence of a queue. -/
def popAll (q : URLQueue) : List QueueItem :=
  popAllGo q.heap.length q

/-- Python str.replace on character lists (all occurrences, nonoverlapping,
left to right); used by the v2 frontier for netloc.replace("www.", ""). -/
def replaceGo (pat repl : List Char) (l : List Char) : List Char :=
  match l with
  | [] => []
  | c :: rest =>
      if h : pat ≠ [] ∧ pat.isPrefixOf (c :: rest) then
        repl ++ replaceGo pat repl ((c :: rest).drop pat.length)
      else
        c :: replaceGo pat repl rest
termination_by l.length
decreasing_by
  · simp only [List.length_drop, List.length_cons]
    have hp : 0 < pat.length := List.length_pos.mpr h.1
    omega
  · simp

/-- Python str.replace on strings. -/
def pyReplace (s pat repl : String) : String :=
  String.mk (replaceGo pat.toList repl.toList s.toList)

/-- One pending URL of the v2 frontier
(intelligent-browser-tool-v2/main.py PrioritizedURL). Only the float
priority takes part in the ordering; all other fields are compare=False. -/
structure PrioritizedURL where
  priority : Rat
  url : String
  depth : Int
  source_url : String
  link_type : String
  ai_score : Rat
  reason : String
deriving Repr, DecidableEq

instance : Inhabited PrioritizedURL :=
  ⟨⟨0, "", 0, "", "", 0, ""⟩⟩

/-- The heap ordering of the v2 frontier: by priority alone. -/
def ple (a b : PrioritizedURL) : Prop := a.priority ≤ b.priority

instance : DecidableRel ple :=
  fun a b => inferInstanceAs (Decidable (a.priority ≤ b.priority))

instance : IsTotal PrioritizedURL ple :=
  ⟨fun a b => le_total a.priority b.priority⟩

instance : IsTrans PrioritizedURL ple :=
  ⟨fun _ _ _ h h' => le_trans h h'⟩

/-- Model of v2 browser_engine.normalize_url without a base: keep the text
before the first '#', then strip trailing slashes. (The base-resolution
branch is not exercised by the frontier, which always calls it unary.) -/
def v2Normalize (url : String) : String :=
  rstripChar '/' (pyDefrag url)

/-- Model of URLFrontier._get_domain: the netloc with every "www."
occurrence removed. -/
def getDomain (url : String) : String :=
  pyReplace (pyUrlsplit url).netloc "www." ""

/-- The fixed link-type bonus table of URLFrontier._calculate_priority. -/
def typeBonus (t : String) : Rat :=
  (([("admission", (3 : Rat)), ("international", mkRat 5 2), ("financial", 2),
     ("academic", mkRat 3 2), ("research", 1), ("faculty", mkRat 1 2),
     ("news", -(mkRat 1 2)), ("navigation", -1), ("general", 0)].lookup t)).getD 0

/-- The mutable state of the v2 URLFrontier. The domain-count dict is a
total function defaulting to 0; on pop the source reads get(domain, 1) and
clamps at 0, which coincides with truncated subtraction on the default. -/
structure URLFrontier where
  heap : List PrioritizedURL
  visited : Finset String
  in_queue : Finset String
  domain_counts : String → Nat
  exploration_rate : Rat
  depth_penalty : Rat
  max_depth : Int
  total_added : Nat
  total_popped : Nat
  duplicates_skipped : Nat

/-- A freshly constructed URLFrontier. -/
def emptyFrontier (er dp : Rat) (md : Int) : URLFrontier :=
  { heap := [], visited := ∅, in_queue := ∅, domain_counts := fun _ => 0
    exploration_rate := er, depth_penalty := dp, max_depth := md
    total_added := 0, total_popped := 0, duplicates_skipped := 0 }

/-- Model of URLFrontier._calculate_priority: the negated sum of base
priority, twice the AI score and the type bonus, minus the depth cost. -/
def calcPriority (f : URLFrontier) (base : Rat) (depth : Int)
    (link_type : String) (ai : Rat) : Rat :=
  -(base + ai * 2 + typeBonus link_type - (depth : Rat) * f.depth_penalty)

/-- Model of URLFrontier.add, branches in source order: duplicate of a
visited or queued key (counted), depth over the limit (uncounted), else
push onto the heap, record the key in in_queue, bump the domain count and
total_added. -/
def frontierAdd (f : URLFrontier) (url : String) (depth : Int) (priority : Rat)
    (source_url link_type : String) (ai_score : Rat) (reason : String) :
    Bool × URLFrontier :=
  let normalized := v2Normalize url
  if normalized ∈ f.visited ∨ normalized ∈ f.in_queue then
    (false, { f with duplicates_skipped := f.duplicates_skipped + 1 })
  else if depth > f.max_depth then
    (false, f)
  else
    let fp := calcPriority f priority depth link_type ai_score
    let p : PrioritizedURL :=
      { priority := fp, url := url, depth := depth, source_url := source_url
        link_type := link_type, ai_score := ai_score, reason := reason }
    let heap := f.heap.orderedInsert ple p
    let domain := getDomain url
    (true,
      { f with
        heap := heap
        in_queue := insert normalized f.in_queue
        domain_counts :=
          Function.update f.domain_counts domain (f.domain_counts domain + 1)
        total_added := f.total_added + 1 })

/-- The simultaneous swap heap[0], heap[idx] = heap[idx], heap[0]. -/
def listSwap {α : Type} [Inhabited α] (l : List α) (i j : Nat) : List α :=
  (l.set i (l.getD j default)).set j (l.getD i default)

/-- Model of URLFrontier.pop. The two random draws are inputs: r stands
for random.random() and idx for randint(0, min(len(heap) - 1, 10)). When
r falls under the exploration rate and the heap holds more than one item,
the source swaps the top with position idx and then calls heapq.heapify
before heapq.heappop; heapify restores a heap of the same multiset, so the
pop still returns the smallest element, which the model renders as
re-sorting the swapped list. Bookkeeping: the popped key moves from
in_queue to visited, its domain count decreases clamped at zero, and
total_popped is incremented. -/
def frontierPop (f : URLFrontier) (r : Rat) (idx : Nat) :
    Option (PrioritizedURL × URLFrontier) :=
  if f.heap.isEmpty then none
  else
    let heap1 :=
      if r < f.exploration_rate ∧ f.heap.length > 1 then
        (listSwap f.heap 0 idx).insertionSort ple
      else f.heap
    match heap1 with
    | [] => none
    | p :: rest =>
        let normalized := v2Normalize p.url
        let domain := getDomain p.url
        some (p,
          { f with
            heap := rest
            in_queue := f.in_queue.erase normalized
            visited := insert normalized f.visited
            domain_counts :=
              Function.update f.domain_counts domain (f.domain_counts domain - 1)
            total_popped := f.total_popped + 1 })

/-- Association-list model of Python dict assignment d[k] = v. -/
def assocSet {β : Type} (k : String) (v : β) : List (String × β) → List (String × β)
  | [] => [(k, v)]
  | (k', v') :: rest => if k' = k then (k, v) :: rest else (k', v') :: assocSet k v rest

/-- storage_manager.StorageStats. The per-category dicts are total
counting functions defaulting to zero. -/
structure StorageStats where
  total_files : Nat := 0
  total_size_bytes : Nat := 0
  files_by_category : String → Nat := fun _ => 0
  size_by_category : String → Nat := fun _ => 0
  duplicates_skipped : Nat := 0
  files_saved : Nat := 0

/-- storage_manager.StoredFile (paths as strings, metadata unused by the
raw-HTML path). -/
structure StoredFile where
  filepath : String
  filename : String
  content_hash : String
  size_bytes : Nat
  created_at : String
  category : String
  url : String
deriving Repr, DecidableEq

/-- The mutable state of StorageManager as the raw-HTML path touches it:
the deduplicator's hash-to-path dict, the set of paths existing on disk
(each successful write adds one), the URL-to-record index and the stats. -/
structure StorageState where
  seen_hashes : List (String × String)
  disk : List String
  file_index : List (String × StoredFile)
  stats : StorageStats

/-- A freshly constructed StorageManager (empty deduplicator and disk). -/
def emptyStorage : StorageState :=
  { seen_hashes := [], disk := [], file_index := [], stats := {} }

/-- The last path segment of a path string (pathlib Path.name). -/
def pathName (p : String) : String :=
  String.mk ((p.toList.reverse.takeWhile (fun c => c ≠ '/')).reverse)

/-- The directory part including the trailing slash, or "" for bare names. -/
def pathDirPre (p : String) : String :=
  String.mk ((p.toList.reverse.dropWhile (fun c => c ≠ '/')).reverse)

/-- The (stem, suffix) split of a file name at its last dot (pathlib
Path.stem / Path.suffix for the names the sources build). -/
def stemSuffix (name : String) : String × String :=
  let l := name.toList
  let extR := l.reverse.takeWhile (fun c => c ≠ '.')
  if extR.length < l.length && extR.length + 1 < l.length then
    (String.mk ((l.reverse.drop (extR.length + 1)).reverse),
     String.mk ('.' :: extR.reverse))
  else (name, "")

/-- Model of StorageManager._ensure_unique_path: keep the path when free,
otherwise append _1, _2, ... to the stem until a free path appears. The
source loop is unbounded; with finitely many occupied paths a free
candidate exists among the first disk.length + 1, so the bounded search
returns the same path the loop finds. -/
def ensureUniquePath (disk : List String) (p : String) : String :=
  if !disk.contains p then p
  else
    let name := pathName p
    let pre := pathDirPre p
    let (stem, ext) := stemSuffix name
    let cands := (List.range (disk.length + 1)).map
      (fun k => pre ++ stem ++ "_" ++ toString (k + 1) ++ ext)
    ((cands.filter (fun c => !disk.contains c)).headD p)

/-- Model of StorageManager.save_raw_html. When skip_duplicate is set and
the md5 of the content is already registered, the write is skipped: the
duplicates_skipped counter is incremented and None is returned (the
existing path is only logged). Otherwise the filename is completed (LLM or
URL-derived default when falsy, .html extension enforced), made unique,
the bytes are written under raw/, the hash registered, and the index and
stats updated. created_at stands for datetime.now().isoformat(). -/
def saveRawHtml (env : PyEnv) (st : StorageState) (url html : String)
    (filename : Option String) (skip_duplicate : Bool) (created_at : String) :
    Option StoredFile × StorageState :=
  let h := env.md5 html
  if skip_duplicate && (st.seen_hashes.lookup h).isSome then
    (none, { st with stats :=
      { st.stats with duplicates_skipped := st.stats.duplicates_skipped + 1 } })
  else
    let fname0 :=
      match filename with
      | some f => if f = "" then env.genFilename url html "html" else f
      | none => env.genFilename url html "html"
    let fname := if strEnds fname0 ".html" then fname0 else fname0 ++ ".html"
    let fp := ensureUniquePath st.disk ("raw/" ++ fname)
    let sf : StoredFile :=
      { filepath := fp, filename := pathName fp, content_hash := h
        size_bytes := html.utf8ByteSize, created_at := created_at
        category := "raw", url := url }
    (some sf,
      { st with
        disk := fp :: st.disk
        seen_hashes := assocSet h fp st.seen_hashes
        file_index := assocSet url sf st.file_index
        stats :=
          { st.stats with
            total_files := st.stats.total_files + 1
            total_size_bytes := st.stats.total_size_bytes + sf.size_bytes
            files_by_category :=
              Function.update st.stats.files_by_category "raw"
                (st.stats.files_by_category "raw" + 1)
            size_by_category :=
              Function.update st.stats.size_by_category "raw"
                (st.stats.size_by_category "raw" + sf.size_bytes) } })

/-- browser fetch outcome as crawler.WebCrawler._process_page consumes it. -/
structure FetchResult where
  success : Bool
  html : String
  error : String

/-- extractor outcome as _process_page consumes it (title and main text). -/
structure ExtractedContent where
  title : String
  text : String

/-- One prioritized outbound URL of an analysis result. -/
structure PUrlInfo where
  url : String
  priority : Int
  reason : String
  link_text : String
deriving Repr, DecidableEq

/-- content analyser outcome as _process_page consumes it. -/
structure AnalysisResult where
  relevance_score : Rat
  key_findings : List String
  extracted_data : List (String × String)
  summary : String
  prioritized_urls : List PUrlInfo

/-- crawler.PageResult with its dataclass defaults (success defaults to
True and is never reset by the quick-gate branch). -/
structure PageResult where
  url : String
  title : String := ""
  success : Bool := true
  error : Option String := none
  fetch_time : Rat := 0
  analysis_time : Rat := 0
  relevance_score : Rat := 0
  key_findings : List String := []
  extracted_data : List (String × String) := []
  summary : String := ""
  priority_urls : List PUrlInfo := []
  depth : Int := 0

/-- Model of WebCrawler._process_page. The blocking stage outcomes (fetch,
extraction, quick intent match, deep analysis) and the measured times are
inputs; the function mirrors the control flow: fetch failure and empty
extraction fail the result; when intent components exist and the quick
confidence is under the hard-coded 0.2 gate, deep analysis is skipped and
a minimal result is returned with the gate confidence, the skip summary
and no priority URLs; otherwise the analysis fields are copied over. -/
def processPage (item : QueueItem) (fetch : FetchResult) (fetch_time : Rat)
    (extracted : Option ExtractedContent) (intentPresent : Bool)
    (quickConf : Rat) (analysis : AnalysisResult) (analysis_time : Rat) :
    PageResult :=
  let r0 : PageResult := { url := item.url, depth := item.depth }
  if !fetch.success then
    { r0 with fetch_time := fetch_time, success := false, error := some fetch.error }
  else
    match extracted with
    | none =>
        { r0 with
          fetch_time := fetch_time
          success := false
          error := some "Content extraction failed" }
    | some ex =>
        if ex.text = "" then
          { r0 with
            fetch_time := fetch_time
            success := false
            error := some "Content extraction failed" }
        else
          let r1 := { r0 with fetch_time := fetch_time, title := ex.title }
          if intentPresent && decide (quickConf < mkRat 1 5) then
            { r1 with
              relevance_score := quickConf
              summary := "Low relevance to intent" }
          else
            { r1 with
              analysis_time := analysis_time
              relevance_score := analysis.relevance_score
              key_findings := analysis.key_findings
              extracted_data := analysis.extracted_data
              summary := analysis.summary
              priority_urls := analysis.prioritized_urls }

/-- The discovery condition of WebCrawler._crawl_loop: discovered URLs are
enqueued only when the result succeeded and its priority_urls list is
nonempty (Python truthiness of the list). -/
def discoveryRuns (result : PageResult) : Bool :=
  result.success && !result.priority_urls.isEmpty

/-- Python s[:n] (first n characters). -/
def strTakeN (n : Nat) (s : String) : String :=
  String.mk (s.toList.take n)

/-- search_engine.SeedURL as the collectors build it. -/
structure SeedURL where
  url : String
  title : String
  snippet : String
  source : String
  rank : Nat
  relevance_score : Rat
deriving Repr, DecidableEq

/-- One raw result item of the duckduckgo-search API (href/link, title,
body/snippet already coalesced as the source does with dict.get chains). -/
structure RawSearchItem where
  url : String
  title : String
  snippet : String

/-- Model of the result loop of DuckDuckGoAPIEngine._search_with_ddgs:
enumerate from rank 1, keep http(s) URLs, truncate the snippet, and score
1.0 - (rank - 1) * 0.08 with no clamping. -/
def ddgsCollect (items : List RawSearchItem) : List SeedURL :=
  ((List.range items.length).zip items).filterMap fun pair =>
    if pair.2.url ≠ "" && strStarts pair.2.url "http" then
      some
        { url := pair.2.url
          title := pair.2.title
          snippet := strTakeN 200 pair.2.snippet
          source := "duckduckgo_api"
          rank := pair.1 + 1
          relevance_score := 1 - (pair.1 : Rat) * mkRat 8 100 }
    else none

/-- One anchor element as the HTML scrapers consume it: href, the
(stripped) anchor text, and the snippet found next to it. -/
structure LiteLink where
  url : String
  text : String
  snippet : String

/-- The enumerated loop of DuckDuckGoAPIEngine._parse_lite_results: rank
counts every anchor (skipped or not); non-http, duckduckgo-internal and
duplicate URLs are skipped; each kept anchor scores
1.0 - (rank - 1) * 0.1 with no clamping; the loop breaks once
max_results + 5 results are collected. -/
def liteGo (maxResults : Nat) (links : List LiteLink) (rank : Nat)
    (seen : List String) (acc : List SeedURL) : List SeedURL :=
  match links with
  | [] => acc.reverse
  | lk :: rest =>
      if lk.url = "" || !strStarts lk.url "http" then
        liteGo maxResults rest (rank + 1) seen acc
      else if strIn "duckduckgo.com" lk.url then
        liteGo maxResults rest (rank + 1) seen acc
      else if seen.contains lk.url then
        liteGo maxResults rest (rank + 1) seen acc
      else
        let title := if lk.text = "" then lk.url else lk.text
        let s : SeedURL :=
          { url := lk.url
            title := strTakeN 100 title
            snippet := strTakeN 200 lk.snippet
            source := "duckduckgo_lite"
            rank := rank
            relevance_score := 1 - ((rank : Rat) - 1) * mkRat 1 10 }
        if acc.length + 1 ≥ maxResults + 5 then (s :: acc).reverse
        else liteGo maxResults rest (rank + 1) (lk.url :: seen) (s :: acc)

/-- Model of DuckDuckGoAPIEngine._parse_lite_results. -/
def liteCollect (maxResults : Nat) (links : List LiteLink) : List SeedURL :=
  liteGo maxResults links 1 [] []

/-- The broad-search fallback of BingSearchEngine._parse_results (the
no-selector-matched branch): keep external http links with anchor text
longer than 5 characters, rank them by how many results were already
collected, and score 0.8 - len(results) * 0.05 with no clamping; break at
max_results. -/
def bingFallbackGo (maxResults : Nat) (links : List LiteLink)
    (seen : List String) (acc : List SeedURL) : List SeedURL :=
  match links with
  | [] => acc.reverse
  | lk :: rest =>
      if !strStarts lk.url "http" || strIn "bing.com" lk.url
          || strIn "microsoft.com" lk.url || seen.contains lk.url then
        bingFallbackGo maxResults rest seen acc
      else
        let seen' := lk.url :: seen
        if lk.text ≠ "" && lk.text.length > 5 then
          let k := acc.length
          let s : SeedURL :=
            { url := lk.url
              title := strTakeN 100 lk.text
              snippet := ""
              source := "bing"
              rank := k + 1
              relevance_score := mkRat 4 5 - (k : Rat) * mkRat 1 20 }
          if k + 1 ≥ maxResults then (s :: acc).reverse
          else bingFallbackGo maxResults rest seen' (s :: acc)
        else bingFallbackGo maxResults rest seen' acc

/-- Model of the Bing broad-search fallback collector. -/
def bingFallbackCollect (maxResults : Nat) (links : List LiteLink) : List SeedURL :=
  bingFallbackGo maxResults links [] []

/-! Helper lemmas about the Python string primitives and the queue. -/

theorem dropWhile_self_idem (p : Char → Bool) (l : List Char) :
    (l.dropWhile p).dropWhile p = l.dropWhile p := by
  induction l with
  | nil => rfl
  | cons a t ih =>
      by_cases h : p a
      · simp [List.dropWhile_cons_of_pos h, ih]
      · simp [List.dropWhile_cons_of_neg h]

theorem trimRightP_idem (p : Char → Bool) (l : List Char) :
    trimRightP p (trimRightP p l) = trimRightP p l := by
  simp [trimRightP, dropWhile_self_idem]

theorem dropWhile_eq_self_of_isPrefix (p : Char → Bool) {x y : List Char}
    (hx : x.dropWhile p = x) (hxy : y <+: x) : y.dropWhile p = y := by
  cases y with
  | nil => rfl
  | cons a t =>
      obtain ⟨s, hs⟩ := hxy
      have ha : ¬ p a = true := by
        intro hpa
        have hx' : x.dropWhile p = (t ++ s).dropWhile p := by
          rw [← hs]
          simp [List.cons_append, List.dropWhile_cons_of_pos hpa]
        have hlen : x.length ≤ (t ++ s).length := by
          calc x.length = (x.dropWhile p).length := by rw [hx]
            _ = ((t ++ s).dropWhile p).length := by rw [hx']
            _ ≤ (t ++ s).length := (List.dropWhile_sublist _).length_le
        rw [← hs] at hlen
        simp at hlen
      simp [List.dropWhile_cons_of_neg ha]

theorem trimRightP_isPrefix (p : Char → Bool) (l : List Char) :
    trimRightP p l <+: l := by
  have h := List.dropWhile_suffix (l := l.reverse) p
  have h2 : (l.reverse.dropWhile p).reverse <+: l.reverse.reverse :=
    List.reverse_prefix.mpr (by simpa using h)
  simpa [trimRightP] using h2

theorem mem_trimRightP (p : Char → Bool) {a : Char} {l : List Char}
    (h : a ∈ trimRightP p l) : a ∈ l := by
  simp only [trimRightP, List.mem_reverse] at h
  exact List.mem_reverse.mp (List.dropWhile_subset p h)

theorem mem_pyStripL {a : Char} {l : List Char} (h : a ∈ pyStripL l) : a ∈ l := by
  have h1 := mem_trimRightP isPySpace h
  exact List.dropWhile_subset isPySpace h1

theorem pyStripL_idem (l : List Char) : pyStripL (pyStripL l) = pyStripL l := by
  unfold pyStripL
  set m := trimLeftP isPySpace l with hm
  have hmfix : m.dropWhile isPySpace = m := dropWhile_self_idem isPySpace l
  have hleft : trimLeftP isPySpace (trimRightP isPySpace m) = trimRightP isPySpace m :=
    dropWhile_eq_self_of_isPrefix isPySpace hmfix (trimRightP_isPrefix isPySpace m)
  rw [hleft, trimRightP_idem]

theorem pyDefragL_eq_self {l : List Char} (h : '#' ∉ l) : pyDefragL l = l := by
  rw [pyDefragL, List.takeWhile_eq_self_iff]
  intro x hx
  simp only [ne_eq, decide_eq_true_eq]
  rintro rfl
  exact h hx

theorem popAllGo_eq : ∀ (l : List QueueItem) (q : URLQueue), q.heap = l →
    popAllGo l.length q = l := by
  intro l
  induction l with
  | nil => intro q _; rfl
  | cons a t ih =>
      intro q hq
      have : queueGetNext q =
          some (a, { q with heap := t, stats := { q.stats with current_size := t.length } }) := by
        simp [queueGetNext, hq]
      simp [popAllGo, this]
      exact ih _ rfl

theorem popAll_eq_heap (q : URLQueue) : popAll q = q.heap :=
  popAllGo_eq q.heap q rfl

theorem itemFromDict_toDict (now : Rat) (i : QueueItem) :
    itemFromDict now (itemToDict i) = i := rfl

/-! Concrete fixtures used by the closed evaluations. -/

/-- A queue configuration with default depth 3 and an unrestricted filter. -/
def cfg0 : QueueConfig := ⟨3, ⟨[], []⟩⟩

/-- A queue holding one freshly added URL. -/
def q1 : URLQueue :=
  (queueAdd env0 cfg0 emptyQueue "http://a.com/b" 2 0 "" [] 0).2

/-- The queue q1 after mark_processed on the same URL with success. -/
def q2 : URLQueue := queueMarkProcessed env0 q1 "http://a.com/b" true

/-- Two frontier entries with distinct priorities (pA strictly smaller,
hence the heap minimum). -/
def pA : PrioritizedURL := ⟨-5, "http://a.com/x", 0, "", "general", 0, ""⟩

/-- The second, lower-priority frontier entry. -/
def pB : PrioritizedURL := ⟨-1, "http://a.com/y", 0, "", "general", 0, ""⟩

/-- A two-element frontier with the default exploration rate 0.2. -/
def frontier0 : URLFrontier :=
  { emptyFrontier (mkRat 1 5) (mkRat 1 10) 5 with
    heap := [pA, pB]
    in_queue := {v2Normalize pA.url, v2Normalize pB.url}
    total_added := 2 }

/-- C1. On a two-item heap with distinct priorities, with the exploration
branch taken (random draw 0 falls under the default exploration rate 0.2,
heap size 2 exceeds 1) and index 1 drawn as the random choice, pop still
returns the heap minimum pA, not the randomly chosen element pB at
position 1: the heapify call after the swap moves the minimum back to the
top, so the exploration swap never changes which item is popped. -/
theorem c1_exploration_pop_still_returns_minimum :
    (0 : Rat) < frontier0.exploration_rate ∧ frontier0.heap.length > 1 ∧
    frontier0.heap.getD 1 default = pB ∧
    (frontierPop frontier0 0 1).map Prod.fst = some pA ∧ pA ≠ pB := by
  refine ⟨by norm_num [frontier0, emptyFrontier], by decide, by decide, ?_, by decide⟩
  decide

/-- C3 counterexample. After adding a URL and calling mark_processed on it
with success, its key is simultaneously in the seen set, in the processed
set and still carried by a heap item: mark_processed did not move the key
out of seen (the seen set is unchanged), so the key lies in more than one
of the claimed disjoint sets. -/
theorem c3_mark_processed_key_in_two_sets :
    "http://a.com/b" ∈ q2.seen ∧ "http://a.com/b" ∈ q2.processed ∧
    q2.seen = q1.seen ∧ (q2.heap.map QueueItem.url) = ["http://a.com/b"] := by
  decide

/-- C3 amended. mark_processed adds the key (the md5 of the re-normalised
URL) to processed and counts it on success, or bumps its retry count in
failed on failure; in both cases the seen set and the heap are untouched,
so the key never leaves seen. -/
theorem c3_mark_processed_adds_terminal_keeps_seen (env : PyEnv) (q : URLQueue)
    (url : String) :
    (queueMarkProcessed env q url true).seen = q.seen ∧
    (queueMarkProcessed env q url true).heap = q.heap ∧
    (queueMarkProcessed env q url true).processed =
      insert (urlHash env (urlNormalize env url "")) q.processed ∧
    (queueMarkProcessed env q url true).failed = q.failed ∧
    (queueMarkProcessed env q url false).seen = q.seen ∧
    (queueMarkProcessed env q url false).processed = q.processed ∧
    (queueMarkProcessed env q url false).heap = q.heap ∧
    (queueMarkProcessed env q url false).failed
        (urlHash env (urlNormalize env url "")) =
      q.failed (urlHash env (urlNormalize env url "")) + 1 := by
  refine ⟨rfl, rfl, rfl, rfl, rfl, rfl, rfl, ?_⟩
  simp [queueMarkProcessed]

/-- C4 counterexample. Pushing the empty URL is a push attempt that
URLQueue.add rejects before any counter is touched: it returns False and
the three counters still sum to 0, so one attempt is not counted in any of
added, duplicates_skipped, filtered_out. -/
theorem c4_empty_url_push_uncounted :
    (queueAdd env0 cfg0 emptyQueue "" 2 0 "" [] 0).1 = false ∧
    (queueAdd env0 cfg0 emptyQueue "" 2 0 "" [] 0).2.stats.total_added +
      (queueAdd env0 cfg0 emptyQueue "" 2 0 "" [] 0).2.stats.duplicates_skipped +
      (queueAdd env0 cfg0 emptyQueue "" 2 0 "" [] 0).2.stats.filtered_out = 0 := by
  decide

/-- C6 counterexample. Saving a queue holding one priority-2 item and
loading the file into a fresh queue restores the heap but not the
per-priority counts: the restored statistics report zero priority-2 items
where the original reported one, so the restored frontier is
distinguishable from the original through get_stats. -/
theorem c6_state_roundtrip_loses_priority_counts :
    (queueLoadState emptyQueue (queueSaveState q1) 0).heap = q1.heap ∧
    (queueLoadState emptyQueue (queueSaveState q1) 0).stats.priority_counts 2 = 0 ∧
    q1.stats.priority_counts 2 = 1 := by
  decide

/-- C7 counterexample. utils.normalize_url accepts an ftp URL unchanged:
the returned URL has scheme ftp, outside the http and https whitelist, so
normalisation does not reject non-http(s) schemes. -/
theorem c7_nonhttp_scheme_accepted :
    normalizeUrl env0 "ftp://example.com/x" none = some "ftp://example.com/x" ∧
    (pyUrlsplit "ftp://example.com/x").scheme = "ftp" ∧
    ("ftp" : String) ≠ "http" ∧ ("ftp" : String) ≠ "https" := by
  decide

/-- C7 amended. For every environment, URL and optional base, whenever
utils.normalize_url returns a URL, that URL parses with a nonempty scheme
and a nonempty host: the final validation rejects exactly the scheme-less
or host-less results. Schemes outside http and https are not rejected
here (that whitelist lives in URLFilter.is_allowed). -/
theorem c7_normalize_requires_scheme_and_host (env : PyEnv) (url : String)
    (base : Option String) (r : String) (h : normalizeUrl env url base = some r) :
    (pyUrlsplit r).scheme ≠ "" ∧ (pyUrlsplit r).netloc ≠ "" := by
  simp only [normalizeUrl] at h
  split_ifs at h with h1 h2
  · simp only [Bool.or_eq_true, decide_eq_true_eq, not_or] at h2
    injection h with h
    subst h
    exact h2

/-- C7 witness: the theorem applied to a concrete accepted URL. -/
theorem c7_normalize_witness :
    normalizeUrl env0 "http://a.com" none = some "http://a.com" ∧
    (pyUrlsplit "http://a.com").scheme ≠ "" ∧
    (pyUrlsplit "http://a.com").netloc ≠ "" :=
  ⟨by decide,
   (c7_normalize_requires_scheme_and_host env0 "http://a.com" none
      "http://a.com" (by decide)).1,
   (c7_normalize_requires_scheme_and_host env0 "http://a.com" none
      "http://a.com" (by decide)).2⟩

/-- C4 amended. Push attempts are counted by the three counters except
for the uncounted reject paths: URLQueue.add with a URL whose
normalisation is empty returns False touching no counter, and the v2
URLFrontier.add counts nothing for a depth-exceeded push; every other
call accounts the attempt in exactly one counter, so the three-counter
sum grows by one exactly when normalisation succeeds (URLQueue), and the
two v2 counters grow by one except on the depth-exceeded path. -/
theorem c4_push_counter_partition_amended (env : PyEnv) (cfg : QueueConfig)
    (q : URLQueue) (url : String) (priority depth : Int) (parent : String)
    (context : List (String × String)) (now : Rat) (f : URLFrontier)
    (u2 : String) (d2 : Int) (pr2 : Rat) (su lt : String) (ai : Rat)
    (re : String) :
    ((queueAdd env cfg q url priority depth parent context now).2.stats.total_added +
      (queueAdd env cfg q url priority depth parent context now).2.stats.duplicates_skipped +
      (queueAdd env cfg q url priority depth parent context now).2.stats.filtered_out =
      q.stats.total_added + q.stats.duplicates_skipped + q.stats.filtered_out +
        (if urlNormalize env url parent = "" then 0 else 1)) ∧
    ((frontierAdd f u2 d2 pr2 su lt ai re).2.total_added +
      (frontierAdd f u2 d2 pr2 su lt ai re).2.duplicates_skipped =
      f.total_added + f.duplicates_skipped +
        (if v2Normalize u2 ∈ f.visited ∨ v2Normalize u2 ∈ f.in_queue then 1
         else if d2 > f.max_depth then 0 else 1)) := by
  constructor
  · simp only [queueAdd]
    split_ifs <;> simp <;> omega
  · simp only [frontierAdd]
    split_ifs <;> simp <;> omega

/-- A queue item about to be processed by the pipeline. -/
def item0 : QueueItem := ⟨2, 0, 0, "http://ex.com/page", "", []⟩

/-- A successful fetch outcome. -/
def fetchOk : FetchResult := ⟨true, "<html>apply</html>", ""⟩

/-- A nonempty extraction outcome. -/
def extracted0 : ExtractedContent := ⟨"Title", "apply now"⟩

/-- An analysis outcome carrying one prioritized outbound URL. -/
def analysis0 : AnalysisResult :=
  ⟨mkRat 9 10, ["finding"], [], "summary", [⟨"http://ex.com/a", 1, "r", "t"⟩]⟩

/-- C2 counterexample. A page whose quick-gate confidence 0.1 falls under
the 0.2 threshold short-circuits with an empty priority_urls list even
though the analyser would have offered an outbound URL; the crawl loop's
discovery condition is therefore false and no outbound URL reaches the
frontier: the gate does suppress discovery, there is no fallback path. -/
theorem c2_below_gate_produces_no_discovery :
    (processPage item0 fetchOk 0 (some extracted0) true (mkRat 1 10) analysis0 0).success
        = true ∧
    (processPage item0 fetchOk 0 (some extracted0) true (mkRat 1 10) analysis0 0).priority_urls
        = [] ∧
    discoveryRuns (processPage item0 fetchOk 0 (some extracted0) true (mkRat 1 10) analysis0 0)
        = false ∧
    analysis0.prioritized_urls ≠ [] := by
  decide

/-- C2 amended. When the fetch succeeds, extraction yields nonempty text,
intent components exist and the quick confidence is under the hard-coded
0.2 gate, deep analysis is skipped: the result is the minimal PageResult
(gate confidence as relevance, the skip summary, success left True, no
priority URLs) and the crawl loop's discovery condition is false, so the
page contributes no outbound URLs; the loop never calls mark_processed at
all, so no processed marking occurs either. -/
theorem c2_quick_gate_skips_analysis_and_discovery (item : QueueItem)
    (fetch : FetchResult) (ft : Rat) (ex : ExtractedContent) (conf : Rat)
    (analysis : AnalysisResult) (ta : Rat) (h1 : fetch.success = true)
    (h2 : ex.text ≠ "") (h3 : conf < mkRat 1 5) :
    processPage item fetch ft (some ex) true conf analysis ta =
      { url := item.url, depth := item.depth, fetch_time := ft,
        title := ex.title, relevance_score := conf,
        summary := "Low relevance to intent" } ∧
    discoveryRuns (processPage item fetch ft (some ex) true conf analysis ta)
        = false := by
  have hres : processPage item fetch ft (some ex) true conf analysis ta =
      { url := item.url, depth := item.depth, fetch_time := ft,
        title := ex.title, relevance_score := conf,
        summary := "Low relevance to intent" } := by
    simp [processPage, h1, h2, h3]
  exact ⟨hres, by rw [hres]; rfl⟩

/-- C2 witness: the amended theorem applied at the concrete gate inputs. -/
theorem c2_quick_gate_witness :
    (mkRat 1 10 < mkRat 1 5) ∧
    discoveryRuns (processPage item0 fetchOk 0 (some extracted0) true (mkRat 1 10)
      analysis0 0) = false :=
  ⟨by decide,
   (c2_quick_gate_skips_analysis_and_discovery item0 fetchOk 0 extracted0
      (mkRat 1 10) analysis0 0 rfl (by decide) (by decide)).2⟩

/-- A store holding one raw artifact f.html with content hash of the
string html payload. -/
def st1 : StorageState :=
  (saveRawHtml env0 emptyStorage "http://a.com" "<html>x" (some "f.html") true "t0").2

/-- C5 counterexample. Saving the same bytes a second time under another
URL skips the write and counts the duplicate, but returns None, not the
path of the existing artifact raw/f.html: the existing path is known to
the deduplicator yet never returned to the caller. -/
theorem c5_duplicate_raw_save_returns_none :
    (saveRawHtml env0 st1 "http://b.com" "<html>x" (some "g.html") true "t1").1 = none ∧
    (saveRawHtml env0 st1 "http://b.com" "<html>x" (some "g.html") true "t1").2.stats.duplicates_skipped = 1 ∧
    (saveRawHtml env0 st1 "http://b.com" "<html>x" (some "g.html") true "t1").2.disk = ["raw/f.html"] ∧
    st1.seen_hashes.lookup (env0.md5 "<html>x") = some "raw/f.html" := by
  decide

/-- C5 amended. Whenever the content hash is already registered, the
duplicate-skipping save increments duplicates_skipped and leaves every
other component of the store unchanged, returning None; the existing
artifact's path is only logged, never returned. -/
theorem c5_duplicate_raw_save_amended (env : PyEnv) (st : StorageState)
    (url html : String) (fn : Option String) (ca p : String)
    (h : st.seen_hashes.lookup (env.md5 html) = some p) :
    saveRawHtml env st url html fn true ca =
      (none, { st with stats :=
        { st.stats with duplicates_skipped := st.stats.duplicates_skipped + 1 } }) := by
  simp [saveRawHtml, h]

/-- C5 witness: the amended theorem applied at the concrete duplicate. -/
theorem c5_duplicate_raw_save_witness :
    st1.seen_hashes.lookup (env0.md5 "<html>x") = some "raw/f.html" ∧
    saveRawHtml env0 st1 "http://b.com" "<html>x" (some "g.html") true "t1" =
      (none, { st1 with stats :=
        { st1.stats with duplicates_skipped := st1.stats.duplicates_skipped + 1 } }) :=
  ⟨by decide,
   c5_duplicate_raw_save_amended env0 st1 "http://b.com" "<html>x" (some "g.html")
     "t1" "raw/f.html" (by decide)⟩

/-- C6 amended. For every queue whose heap list is sorted (every heap the
operations build is), save_state followed by load_state into a fresh queue
restores the heap list exactly (the JSON round-trip is faithful and
re-heapifying a sorted list is the identity), restores the seen, processed
and failed collections and the four scalar counters, and therefore
reproduces the same pop sequence; the per-priority and per-depth counts
are not restored (see the counterexample). -/
theorem c6_state_roundtrip_amended (q : URLQueue) (now : Rat)
    (hs : List.Sorted qle q.heap) :
    (queueLoadState emptyQueue (queueSaveState q) now).heap = q.heap ∧
    (queueLoadState emptyQueue (queueSaveState q) now).seen = q.seen ∧
    (queueLoadState emptyQueue (queueSaveState q) now).processed = q.processed ∧
    (queueLoadState emptyQueue (queueSaveState q) now).failed = q.failed ∧
    ((queueLoadState emptyQueue (queueSaveState q) now).stats.total_added,
     (queueLoadState emptyQueue (queueSaveState q) now).stats.total_processed,
     (queueLoadState emptyQueue (queueSaveState q) now).stats.duplicates_skipped,
     (queueLoadState emptyQueue (queueSaveState q) now).stats.filtered_out) =
      (q.stats.total_added, q.stats.total_processed,
       q.stats.duplicates_skipped, q.stats.filtered_out) ∧
    popAll (queueLoadState emptyQueue (queueSaveState q) now) = popAll q := by
  have hmap : (queueSaveState q).heap.map (itemFromDict now) = q.heap := by
    simp only [queueSaveState, List.map_map, Function.comp_def, itemFromDict_toDict,
      List.map_id']
  have hheap : (queueLoadState emptyQueue (queueSaveState q) now).heap = q.heap := by
    simp only [queueLoadState, hmap]
    exact hs.insertionSort_eq
  refine ⟨hheap, rfl, rfl, rfl, rfl, ?_⟩
  rw [popAll_eq_heap, popAll_eq_heap, hheap]

/-- C6 witness: the amended theorem applied to the one-item queue q1. -/
theorem c6_state_roundtrip_witness :
    List.Sorted qle q1.heap ∧
    (queueLoadState emptyQueue (queueSaveState q1) 0).heap = q1.heap ∧
    popAll (queueLoadState emptyQueue (queueSaveState q1) 0) = popAll q1 :=
  ⟨by decide,
   (c6_state_roundtrip_amended q1 0 (by decide)).1,
   (c6_state_roundtrip_amended q1 0 (by decide)).2.2.2.2.2⟩

/-- C10. Whenever URLQueue.add returns False (invalid, depth-exceeded,
filtered or duplicate URL), the heap, seen set, processed set, failed map,
per-priority counts, per-depth counts and even current_size are exactly
as before the call: only the scalar skip counters can change. -/
theorem c10_failed_add_leaves_state_unchanged (env : PyEnv) (cfg : QueueConfig)
    (q : URLQueue) (url : String) (priority depth : Int) (parent : String)
    (context : List (String × String)) (now : Rat)
    (h : (queueAdd env cfg q url priority depth parent context now).1 = false) :
    (queueAdd env cfg q url priority depth parent context now).2.heap = q.heap ∧
    (queueAdd env cfg q url priority depth parent context now).2.seen = q.seen ∧
    (queueAdd env cfg q url priority depth parent context now).2.processed = q.processed ∧
    (queueAdd env cfg q url priority depth parent context now).2.failed = q.failed ∧
    (queueAdd env cfg q url priority depth parent context now).2.stats.priority_counts =
      q.stats.priority_counts ∧
    (queueAdd env cfg q url priority depth parent context now).2.stats.depth_counts =
      q.stats.depth_counts ∧
    (queueAdd env cfg q url priority depth parent context now).2.stats.current_size =
      q.stats.current_size := by
  simp only [queueAdd] at h ⊢
  split_ifs at h ⊢ <;> simp_all

/-- C10 witness: the theorem applied to a rejected concrete push. -/
theorem c10_failed_add_witness :
    (queueAdd env0 cfg0 emptyQueue "" 2 0 "" [] 0).1 = false ∧
    ((queueAdd env0 cfg0 emptyQueue "" 2 0 "" [] 0).2.heap = emptyQueue.heap ∧
     (queueAdd env0 cfg0 emptyQueue "" 2 0 "" [] 0).2.seen = emptyQueue.seen ∧
     (queueAdd env0 cfg0 emptyQueue "" 2 0 "" [] 0).2.processed = emptyQueue.processed ∧
     (queueAdd env0 cfg0 emptyQueue "" 2 0 "" [] 0).2.failed = emptyQueue.failed ∧
     (queueAdd env0 cfg0 emptyQueue "" 2 0 "" [] 0).2.stats.priority_counts =
       emptyQueue.stats.priority_counts ∧
     (queueAdd env0 cfg0 emptyQueue "" 2 0 "" [] 0).2.stats.depth_counts =
       emptyQueue.stats.depth_counts ∧
     (queueAdd env0 cfg0 emptyQueue "" 2 0 "" [] 0).2.stats.current_size =
       emptyQueue.stats.current_size) :=
  ⟨by decide,
   c10_failed_add_leaves_state_unchanged env0 cfg0 emptyQueue "" 2 0 "" [] 0 (by decide)⟩

/-- C8 counterexample. Neither normaliser is idempotent. utils:
normalising "http://a.com/x #f" strips first and defragments second, so
the result keeps a trailing space that a second pass removes. url_queue
URLNormalizer: a scheme-less input "a" is rebuilt as "://a", which
reparses with an empty path and grows again to "://://a". -/
theorem c8_normalize_not_idempotent :
    normalizeUrl env0 "http://a.com/x #f" none = some "http://a.com/x " ∧
    normalizeUrl env0 "http://a.com/x " none = some "http://a.com/x" ∧
    ("http://a.com/x " : String) ≠ "http://a.com/x" ∧
    urlNormalize env0 "a" "" = "://a" ∧
    urlNormalize env0 "://a" "" = "://://a" ∧
    ("://://a" : String) ≠ "://a" := by
  decide

/-- C8 amended. utils.normalize_url is idempotent on every input that
contains no '#': when normalising such a URL succeeds, normalising the
result returns it unchanged. (With a fragment, stripping happens before
defragmenting, so a space before the '#' survives one pass and not the
next; the failing inputs are exactly those, and the URLNormalizer variant
additionally fails on scheme-less inputs.) -/
theorem c8_normalize_idempotent_no_fragment (env : PyEnv) (u r : String)
    (hnf : '#' ∉ u.toList) (h : normalizeUrl env u none = some r) :
    normalizeUrl env r none = some r := by
  simp only [normalizeUrl] at h
  split_ifs at h with h1 h2
  have hsub : '#' ∉ (pyStrip u).toList := fun hmem => hnf (mem_pyStripL hmem)
  have hdef : pyDefrag (pyStrip u) = pyStrip u := by
    show String.mk (pyDefragL (pyStrip u).toList) = pyStrip u
    rw [pyDefragL_eq_self hsub]
    rfl
  injection h with hr
  subst hr
  rw [hdef] at h2 ⊢
  simp only [Bool.or_eq_true, decide_eq_true_eq, not_or] at h2
  have hne : pyStrip u ≠ "" := by
    intro he
    exact h2.2 (by rw [he]; rfl)
  have hstrip : pyStrip (pyStrip u) = pyStrip u :=
    congrArg String.mk (pyStripL_idem u.toList)
  simp only [normalizeUrl, if_neg hne]
  rw [hstrip, hdef]
  split_ifs with hc
  · simp only [Bool.or_eq_true, decide_eq_true_eq] at hc
    rcases hc with hc | hc
    · exact absurd hc h2.1
    · exact absurd hc h2.2
  · rfl

/-- C8 witness: the amended theorem applied to a fragment-free URL whose
normalisation strips surrounding whitespace. -/
theorem c8_idempotent_witness :
    ('#' ∉ (" http://a.com/x " : String).toList) ∧
    normalizeUrl env0 " http://a.com/x " none = some "http://a.com/x" ∧
    normalizeUrl env0 "http://a.com/x" none = some "http://a.com/x" :=
  ⟨by decide, by decide,
   c8_normalize_idempotent_no_fragment env0 " http://a.com/x " "http://a.com/x"
     (by decide) (by decide)⟩

/-- Accumulator invariant of the lite-results loop: every collected seed
scores 1 - (rank - 1) * 0.1 at its own recorded rank, which is at least 1. -/
theorem liteGo_score (maxR : Nat) (links : List LiteLink) :
    ∀ (rank : Nat) (seen : List String) (acc : List SeedURL),
      1 ≤ rank →
      (∀ s ∈ acc, s.relevance_score = 1 - ((s.rank : Rat) - 1) * mkRat 1 10 ∧ 1 ≤ s.rank) →
      ∀ s ∈ liteGo maxR links rank seen acc,
        s.relevance_score = 1 - ((s.rank : Rat) - 1) * mkRat 1 10 ∧ 1 ≤ s.rank := by
  induction links with
  | nil =>
      intro rank seen acc _ hacc s hs
      simp only [liteGo, List.mem_reverse] at hs
      exact hacc s hs
  | cons lk rest ih =>
      intro rank seen acc hrank hacc s hs
      simp only [liteGo] at hs
      split_ifs at hs with h1 h2 h3 h4 h5 h6
      · exact ih (rank + 1) seen acc (by omega) hacc s hs
      · exact ih (rank + 1) seen acc (by omega) hacc s hs
      · exact ih (rank + 1) seen acc (by omega) hacc s hs
      all_goals
        first
          | (rw [List.mem_reverse, List.mem_cons] at hs
             rcases hs with rfl | hmem
             · exact ⟨rfl, hrank⟩
             · exact hacc s hmem)
          | (refine ih (rank + 1) _ _ (by omega) ?_ s hs
             intro t ht
             rcases List.mem_cons.mp ht with rfl | htm
             · exact ⟨rfl, hrank⟩
             · exact hacc t htm)

/-- Accumulator invariant of the Bing broad-search fallback loop: every
collected seed scores 0.8 - (rank - 1) * 0.05 at its recorded rank. -/
theorem bingGo_score (maxR : Nat) (links : List LiteLink) :
    ∀ (seen : List String) (acc : List SeedURL),
      (∀ s ∈ acc, s.relevance_score = mkRat 4 5 - ((s.rank : Rat) - 1) * mkRat 1 20 ∧ 1 ≤ s.rank) →
      ∀ s ∈ bingFallbackGo maxR links seen acc,
        s.relevance_score = mkRat 4 5 - ((s.rank : Rat) - 1) * mkRat 1 20 ∧ 1 ≤ s.rank := by
  induction links with
  | nil =>
      intro seen acc hacc s hs
      simp only [bingFallbackGo, List.mem_reverse] at hs
      exact hacc s hs
  | cons lk rest ih =>
      intro seen acc hacc s hs
      simp only [bingFallbackGo] at hs
      split_ifs at hs with h1 h2 h3
      · exact ih seen acc hacc s hs
      · rw [List.mem_reverse, List.mem_cons] at hs
        rcases hs with rfl | hmem
        · refine ⟨?_, Nat.succ_le_succ (Nat.zero_le _)⟩
          show mkRat 4 5 - ((acc.length : Rat)) * mkRat 1 20 =
            mkRat 4 5 - (((acc.length + 1 : Nat) : Rat) - 1) * mkRat 1 20
          push_cast
          ring
        · exact hacc s hmem
      · refine ih _ _ ?_ s hs
        intro t ht
        rcases List.mem_cons.mp ht with rfl | htm
        · refine ⟨?_, Nat.succ_le_succ (Nat.zero_le _)⟩
          show mkRat 4 5 - ((acc.length : Rat)) * mkRat 1 20 =
            mkRat 4 5 - (((acc.length + 1 : Nat) : Rat) - 1) * mkRat 1 20
          push_cast
          ring
        · exact hacc t htm
      · exact ih _ _ hacc s hs

/-- An anchor list with eleven duplicate links followed by a fresh one:
the fresh link is kept at enumeration rank 12. -/
def linksX : List LiteLink :=
  List.replicate 11 ⟨"http://x.com/a", "t", "s"⟩ ++ [⟨"http://y.com/b", "t", "s"⟩]

/-- C9 counterexample. Parsing the lite results of linksX keeps two seeds
at ranks 1 and 12; the collector scores every kept seed
1 - (rank - 1) * 0.1 without clamping, and at rank 12 that value,
1 - 11 * 0.1 = -0.1, is negative, so not every produced SeedURL has a
relevance score in the unit interval. -/
theorem c9_negative_relevance_score :
    ((liteCollect 5 linksX).map SeedURL.rank) = [1, 12] ∧
    (∀ s ∈ liteCollect 5 linksX,
      s.relevance_score = 1 - ((s.rank : Rat) - 1) * mkRat 1 10) ∧
    (1 - ((12 : Rat) - 1) * mkRat 1 10 < 0) := by
  refine ⟨by decide, ?_, ?_⟩
  · intro s hs
    exact (liteGo_score 5 linksX 1 [] [] (by omega) (by simp) s hs).1
  · rw [Rat.mkRat_eq_div]
    norm_num

/-- C9 amended. The synthetic relevance scores are exactly the unclamped
formulas of the code: 1 - (rank-1)*0.08 for DDG API results,
1 - (rank-1)*0.1 for lite-scraped results, and 0.8 - (rank-1)*0.05 for
Bing's broad-search fallback. Every score is bounded above by the leading
constant (1, 1 and 0.8 respectively), but there is no lower clamp, so
scores at large ranks are negative (see the counterexample). -/
theorem c9_synthetic_scores_amended :
    (∀ (items : List RawSearchItem) (s : SeedURL), s ∈ ddgsCollect items →
       s.relevance_score = 1 - ((s.rank : Rat) - 1) * mkRat 8 100 ∧
       1 ≤ s.rank ∧ s.relevance_score ≤ 1) ∧
    (∀ (maxR : Nat) (links : List LiteLink) (s : SeedURL), s ∈ liteCollect maxR links →
       s.relevance_score = 1 - ((s.rank : Rat) - 1) * mkRat 1 10 ∧
       1 ≤ s.rank ∧ s.relevance_score ≤ 1) ∧
    (∀ (maxR : Nat) (links : List LiteLink) (s : SeedURL), s ∈ bingFallbackCollect maxR links →
       s.relevance_score = mkRat 4 5 - ((s.rank : Rat) - 1) * mkRat 1 20 ∧
       1 ≤ s.rank ∧ s.relevance_score ≤ mkRat 4 5) := by
  have hc8 : (0 : Rat) ≤ mkRat 8 100 := by rw [Rat.mkRat_eq_div]; norm_num
  have hc10 : (0 : Rat) ≤ mkRat 1 10 := by rw [Rat.mkRat_eq_div]; norm_num
  have hc20 : (0 : Rat) ≤ mkRat 1 20 := by rw [Rat.mkRat_eq_div]; norm_num
  refine ⟨?_, ?_, ?_⟩
  · intro items s hs
    simp only [ddgsCollect, List.mem_filterMap] at hs
    obtain ⟨pair, _, hif⟩ := hs
    split_ifs at hif with hcond
    injection hif with hif
    subst hif
    refine ⟨?_, Nat.succ_le_succ (Nat.zero_le _), ?_⟩
    · show (1 : Rat) - (pair.1 : Rat) * mkRat 8 100 =
        1 - (((pair.1 + 1 : Nat) : Rat) - 1) * mkRat 8 100
      push_cast
      ring
    · show (1 : Rat) - (pair.1 : Rat) * mkRat 8 100 ≤ 1
      nlinarith [mul_nonneg (Nat.cast_nonneg (α := Rat) pair.1) hc8]
  · intro maxR links s hs
    have h := liteGo_score maxR links 1 [] [] (le_refl 1) (by simp) s hs
    refine ⟨h.1, h.2, ?_⟩
    rw [h.1]
    have h1 : (1 : Rat) ≤ (s.rank : Rat) := by exact_mod_cast h.2
    nlinarith [mul_nonneg (by linarith : (0 : Rat) ≤ (s.rank : Rat) - 1) hc10]
  · intro maxR links s hs
    have h := bingGo_score maxR links [] [] (by simp) s hs
    refine ⟨h.1, h.2, ?_⟩
    rw [h.1]
    have h1 : (1 : Rat) ≤ (s.rank : Rat) := by exact_mod_cast h.2
    nlinarith [mul_nonneg (by linarith : (0 : Rat) ≤ (s.rank : Rat) - 1) hc20]

/-- A one-item DDG API result list. -/
def itemsX : List RawSearchItem := [⟨"http://x.com", "t", "sn"⟩]

/-- The seed the collector builds from itemsX (rank 1, score 1). -/
def sX : SeedURL :=
  { url := "http://x.com", title := "t", snippet := strTakeN 200 "sn"
    source := "duckduckgo_api", rank := 0 + 1
    relevance_score := 1 - ((0 : Nat) : Rat) * mkRat 8 100 }

/-- C9 witness: the amended theorem applied to the concrete rank-1 seed. -/
theorem c9_scores_witness :
    sX ∈ ddgsCollect itemsX ∧
    sX.relevance_score = 1 - ((sX.rank : Rat) - 1) * mkRat 8 100 ∧
    sX.relevance_score ≤ 1 :=
  have hmem : sX ∈ ddgsCollect itemsX := by
    rw [show ddgsCollect itemsX = [sX] from rfl]
    exact List.mem_singleton.mpr rfl
  ⟨hmem, (c9_synthetic_scores_amended.1 itemsX sX hmem).1,
   (c9_synthetic_scores_amended.1 itemsX sX hmem).2.2⟩

end Browser
